import Mathlib

/-!
Verification of the dice wagering program (Anchor/Solana) against its
natural-language specification.  The Rust sources under
`programs/dice/src` are shallowly embedded: machine integers become `Nat`
with explicit `% 2^w` where wrap-around matters, account lamport balances
become `Nat` fields of explicit state records, and fallible instruction
handlers become functions into `Except DiceError _`.
-/

/-! ## Constants (constants.rs) -/

/-- `MIN_BET_LAMPORTS : u64 = 10_000_000` (constants.rs). -/
def MIN_BET_LAMPORTS : Nat := 10000000

/-- `MAX_BET_LAMPORTS : u64 = 10_000_000_000` (constants.rs). -/
def MAX_BET_LAMPORTS : Nat := 10000000000

/-- `MIN_ROLL : u8 = 2` (constants.rs). -/
def MIN_ROLL : Nat := 2

/-- `MAX_ROLL : u8 = 96` (constants.rs). -/
def MAX_ROLL : Nat := 96

/-- `HOUSE_EDGE : u16 = 150` basis points (constants.rs). -/
def HOUSE_EDGE : Nat := 150

/-- `REFUND_TIMEOUT_SLOTS : u64 = 150` (constants.rs). -/
def REFUND_TIMEOUT_SLOTS : Nat := 150

/-! ## Errors (error.rs) -/

/-- The `DiceError` enum from error.rs, one constructor per `#[msg(...)]`
variant. -/
inductive DiceError where
  | BetAlreadyPlaced
  | BetAlreadyResolved
  | FailedToParseRandomness
  | RandomnessExpired
  | RandomnessNotResolved
  | InsufficientFunds
  | NotPlayerBet
  | RefundNotEligible
  | MinimumBet
  | MaximumBet
  | MinimumRoll
  | MaximumRoll
  | Ed25519Program
  | Ed25519Accounts
  | Ed25519DataLength
  | Ed25519Header
  | Ed25519Pubkey
  | Ed25519Signature
  | Overflow
  deriving DecidableEq, Repr

/-! ## Byte-level helpers

`natToLE w n` is the `w`-byte little-endian serialization of `n` (the
image of Rust `to_le_bytes` after reduction mod `256^w`); `natToBE` is the
big-endian counterpart used by SHA-256.  `leVal` recovers the value of a
little-endian byte string. -/

def natToLE : Nat → Nat → List Nat
  | 0, _ => []
  | w + 1, n => n % 256 :: natToLE w (n / 256)

def natToBE : Nat → Nat → List Nat
  | 0, _ => []
  | w + 1, n => natToBE w (n / 256) ++ [n % 256]

def leVal (bytes : List Nat) : Nat :=
  bytes.foldr (fun b acc => acc * 256 + b % 256) 0

/-- `u128::from_le_bytes` on a 16-byte string, held in a 128-bit register. -/
def leU128 (bytes : List Nat) : Nat := leVal bytes % 2 ^ 128

/-! ## Bet account (state/mod.rs)

`#[account] pub struct Bet`.  Pubkeys are 32-byte strings.  `betWf`
collects the width bounds that the Rust field types (`u64`, `Pubkey`,
`u128`, `u8`, `u64`, `bool`) impose on any account that can exist. -/

structure Bet where
  amount : Nat
  player : List Nat
  slot : Nat
  seed : Nat
  roll : Nat
  bump : Nat
  randomness_account : List Nat
  commit_slot : Nat
  is_resolved : Bool
  deriving DecidableEq, Repr

def pubkeyWf (p : List Nat) : Prop := p.length = 32 ∧ ∀ b ∈ p, b < 256

def betWf (b : Bet) : Prop :=
  b.amount < 2 ^ 64 ∧ pubkeyWf b.player ∧ b.slot < 2 ^ 64 ∧
  b.seed < 2 ^ 128 ∧ b.roll < 2 ^ 8 ∧ b.bump < 2 ^ 8 ∧
  pubkeyWf b.randomness_account ∧ b.commit_slot < 2 ^ 64

instance : DecidablePred pubkeyWf := fun _ => instDecidableAnd

instance : DecidablePred betWf := fun _ => instDecidableAnd

/-- Borsh serialization of `Bet` (`self.bet.try_to_vec()` in
resolve_bet.rs): fixed-width little-endian fields in declaration order,
`bool` as one byte. -/
def serializeBet (b : Bet) : List Nat :=
  natToLE 8 b.amount ++ b.player ++ natToLE 8 b.slot ++ natToLE 16 b.seed ++
  [b.roll % 256] ++ [b.bump % 256] ++ b.randomness_account ++
  natToLE 8 b.commit_slot ++ [if b.is_resolved then 1 else 0]

/-! ## SHA-256 (`solana_program::hash::hash`)

`hash(sig)` in resolve_bet.rs is SHA-256 of the signature bytes.  The
function is embedded executably; all 32-bit words live in `Nat` reduced by
`m32`. -/

def m32 (x : Nat) : Nat := x % 2 ^ 32

def rotr32 (n x : Nat) : Nat := m32 ((x >>> n) ||| (x <<< (32 - n)))

def xor3 (a b c : Nat) : Nat := (a ^^^ b) ^^^ c

def bigSigma0 (x : Nat) : Nat := xor3 (rotr32 2 x) (rotr32 13 x) (rotr32 22 x)

def bigSigma1 (x : Nat) : Nat := xor3 (rotr32 6 x) (rotr32 11 x) (rotr32 25 x)

def smallSigma0 (x : Nat) : Nat := xor3 (rotr32 7 x) (rotr32 18 x) (x >>> 3)

def smallSigma1 (x : Nat) : Nat := xor3 (rotr32 17 x) (rotr32 19 x) (x >>> 10)

def chFn (e f g : Nat) : Nat := (e &&& f) ^^^ ((e ^^^ 0xffffffff) &&& g)

def majFn (a b c : Nat) : Nat := xor3 (a &&& b) (a &&& c) (b &&& c)

def k256 : List Nat :=
  [1116352408, 1899447441, 3049323471, 3921009573, 961987163,
   1508970993, 2453635748, 2870763221, 3624381080, 310598401,
   607225278, 1426881987, 1925078388, 2162078206, 2614888103,
   3248222580, 3835390401, 4022224774, 264347078, 604807628,
   770255983, 1249150122, 1555081692, 1996064986, 2554220882,
   2821834349, 2952996808, 3210313671, 3336571891, 3584528711,
   113926993, 338241895, 666307205, 773529912, 1294757372,
   1396182291, 1695183700, 1986661051, 2177026350, 2456956037,
   2730485921, 2820302411, 3259730800, 3345764771, 3516065817,
   3600352804, 4094571909, 275423344, 430227734, 506948616,
   659060556, 883997877, 958139571, 1322822218, 1537002063,
   1747873779, 1955562222, 2024104815, 2227730452, 2361852424,
   2428436474, 2756734187, 3204031479, 3329325298]

structure Sha256State where
  a : Nat
  b : Nat
  c : Nat
  d : Nat
  e : Nat
  f : Nat
  g : Nat
  h : Nat
  deriving DecidableEq, Repr

def shaInit : Sha256State :=
  ⟨1779033703, 3144134277, 1013904242, 2773480762,
   1359893119, 2600822924, 528734635, 1541459225⟩

def shaRound (s : Sha256State) (kw : Nat) : Sha256State :=
  let t1 := m32 (s.h + bigSigma1 s.e + chFn s.e s.f s.g + kw)
  let t2 := m32 (bigSigma0 s.a + majFn s.a s.b s.c)
  ⟨m32 (t1 + t2), s.a, s.b, s.c, m32 (s.d + t1), s.e, s.f, s.g⟩

def addStates (x y : Sha256State) : Sha256State :=
  ⟨m32 (x.a + y.a), m32 (x.b + y.b), m32 (x.c + y.c), m32 (x.d + y.d),
   m32 (x.e + y.e), m32 (x.f + y.f), m32 (x.g + y.g), m32 (x.h + y.h)⟩

/-- Pad the message to a multiple of 64 bytes: `0x80`, zeros, then the
bit length as 8 big-endian bytes.  Input bytes are reduced mod 256. -/
def padMessage (msg : List Nat) : List Nat :=
  let len := msg.length
  let zeros := (64 - (len + 9) % 64) % 64
  msg.map (· % 256) ++ [0x80] ++ List.replicate zeros 0 ++ natToBE 8 (len * 8)

/-- Big-endian 32-bit word `i` of a 64-byte block. -/
def beWord (blk : List Nat) (i : Nat) : Nat :=
  ((blk.drop (4 * i)).take 4).foldl (fun acc b => acc * 256 + b % 256) 0

/-- Extend the 16 block words to the 64-entry message schedule. -/
def extendWords : List Nat → Nat → List Nat
  | ws, 0 => ws
  | ws, fuel + 1 =>
    let n := ws.length
    let w := m32 (smallSigma1 (ws.getD (n - 2) 0) + ws.getD (n - 7) 0 +
                  smallSigma0 (ws.getD (n - 15) 0) + ws.getD (n - 16) 0)
    extendWords (ws ++ [w]) fuel

def msgSchedule (blk : List Nat) : List Nat :=
  extendWords ((List.range 16).map (beWord blk)) 48

def compressBlock (hs : Sha256State) (blk : List Nat) : Sha256State :=
  let kws := List.zipWith (fun k w => m32 (k + w)) k256 (msgSchedule blk)
  addStates hs (kws.foldl shaRound hs)

/-- The 64-byte blocks of a padded message. -/
def blocks64 (l : List Nat) : List (List Nat) :=
  (List.range (l.length / 64)).map (fun i => (l.drop (64 * i)).take 64)

def stateBytes (s : Sha256State) : List Nat :=
  natToBE 4 s.a ++ natToBE 4 s.b ++ natToBE 4 s.c ++ natToBE 4 s.d ++
  natToBE 4 s.e ++ natToBE 4 s.f ++ natToBE 4 s.g ++ natToBE 4 s.h

/-- SHA-256 of a byte string, as the 32-byte digest. -/
def sha256 (msg : List Nat) : List Nat :=
  stateBytes ((blocks64 (padMessage msg)).foldl compressBlock shaInit)

/-! ## Randomness derivation and win condition (resolve_bet.rs 149-164)

```rust
let hash = hash(sig).to_bytes();
hash_16.copy_from_slice(&hash[0..16]);  let lower = u128::from_le_bytes(hash_16);
hash_16.copy_from_slice(&hash[16..32]); let upper = u128::from_le_bytes(hash_16);
let roll = lower.wrapping_add(upper).wrapping_rem(100) as u8 + 1;
```
`wrapping_add` on `u128` is addition mod `2^128`, `wrapping_rem` on an
unsigned type is plain `%`, `as u8` truncates mod 256, and the final `+ 1`
is a `u8` addition (mod 256). -/

def hashLower (sig : List Nat) : Nat := leU128 ((sha256 sig).take 16)

def hashUpper (sig : List Nat) : Nat := leU128 ((sha256 sig).drop 16)

def diceRoll (sig : List Nat) : Nat :=
  ((hashLower sig + hashUpper sig) % 2 ^ 128 % 100 % 256 + 1) % 256

/-- `self.bet.roll > roll` — the win test of resolve_bet.rs line 164. -/
def betWins (prediction roll : Nat) : Bool := prediction > roll

/-! ## Payout arithmetic (resolve_bet.rs 168-174)

`u128` checked operations; `None` is mapped to `DiceError::Overflow` by
`ok_or` at every step.  `checked_mul` fails iff the product leaves 128
bits; `checked_div` fails iff the divisor is zero. -/

def checkedMul128 (a b : Nat) : Except DiceError Nat :=
  if a * b < 2 ^ 128 then .ok (a * b) else .error .Overflow

def checkedDiv128 (a b : Nat) : Except DiceError Nat :=
  if b = 0 then .error .Overflow else .ok (a / b)

/-- The payout chain: `(amount as u128).checked_mul(10000 - HOUSE_EDGE)` /
`checked_div(roll - 1)` / `checked_div(100)`, before the final `as u64`
cast.  In the winning branch `roll ≥ 2`, so the Rust `roll as u128 - 1`
never underflows; `Nat` subtraction agrees with it there. -/
def payoutU128 (amount roll : Nat) : Except DiceError Nat := do
  let x ← checkedMul128 amount (10000 - HOUSE_EDGE)
  let y ← checkedDiv128 x (roll - 1)
  checkedDiv128 y 100

/-! ## Lamport transfers (system program CPI)

`transfer(ctx, amount)` moves lamports between system accounts and fails
when the source balance is short; the spec calls that failure the
insufficient-vault-funds resource error, and the embedding reuses the
repository's name for that condition, `DiceError::InsufficientFunds`. -/

def systemTransfer (src dst amt : Nat) : Except DiceError (Nat × Nat) :=
  if src < amt then .error .InsufficientFunds else .ok (src - amt, dst + amt)

/-! ## resolve_bet (resolve_bet.rs 149-199) -/

/-- The accounts a resolve call touches: the bet account, the vault
balance, and the player balance. -/
structure ResolveState where
  bet : Bet
  vault : Nat
  playerLamports : Nat
  deriving DecidableEq, Repr

/-- `ResolveBet::resolve_bet`: derive the roll from the signature, pay
`payout` from the vault on a win, do nothing on a loss.  The handler reads
no `is_resolved` flag and writes none; on success Anchor's
`close = player` constraint destroys the bet account. -/
def resolveBetStep (s : ResolveState) (sig : List Nat) :
    Except DiceError ResolveState :=
  let roll := diceRoll sig
  if betWins s.bet.roll roll then
    match payoutU128 s.bet.amount s.bet.roll with
    | .error e => .error e
    | .ok p =>
      match systemTransfer s.vault s.playerLamports (p % 2 ^ 64) with
      | .error e => .error e
      | .ok vp => .ok { s with vault := vp.1, playerLamports := vp.2 }
  else .ok s

/-- Ledger semantics: an instruction that fails is rolled back whole, so
the post-transaction state of a failed resolve is the pre-state. -/
def runResolve (s : ResolveState) (sig : List Nat) : ResolveState :=
  match resolveBetStep s sig with
  | .ok s' => s'
  | .error _ => s

/-! ## refund_bet (refund_bet.rs 70-116)

The Anchor account constraint `bet.player == player.key()
@ DiceError::NotPlayerBet` is checked before the handler body runs; the
body then checks `is_resolved`, the saturating slot difference against
`REFUND_TIMEOUT_SLOTS`, and the vault balance, transfers the stake back,
and sets `is_resolved := true`. -/

structure RefundState where
  bet : Bet
  vault : Nat
  playerLamports : Nat
  deriving DecidableEq, Repr

def refundBetStep (requester : List Nat) (currentSlot : Nat)
    (s : RefundState) : Except DiceError RefundState :=
  if s.bet.player ≠ requester then .error .NotPlayerBet
  else if s.bet.is_resolved = true then .error .BetAlreadyResolved
  else if currentSlot - s.bet.commit_slot < REFUND_TIMEOUT_SLOTS then
    .error .RefundNotEligible
  else if s.bet.amount > s.vault then .error .InsufficientFunds
  else
    match systemTransfer s.vault s.playerLamports s.bet.amount with
    | .error e => .error e
    | .ok vp =>
      .ok { bet := { s.bet with is_resolved := true },
            vault := vp.1, playerLamports := vp.2 }

/-! ## place_bet -/

/-- Modelled from the spec: `place_bet.rs` is declared in
`instructions/mod.rs` and dispatched from lib.rs (`create_bet`), but its
source file is not in the repository snapshot.  The validation contract
follows spec §4.1 — four distinct bound checks, then a fresh record with
`is_resolved = false` and `commit_slot` set to the current height — with
the constants of constants.rs and the error names of error.rs. -/
def placeBet (bettor : List Nat) (stake roll seed : Nat)
    (randomness : List Nat) (bump currentSlot : Nat) :
    Except DiceError Bet :=
  if stake < MIN_BET_LAMPORTS then .error .MinimumBet
  else if stake > MAX_BET_LAMPORTS then .error .MaximumBet
  else if roll < MIN_ROLL then .error .MinimumRoll
  else if roll > MAX_ROLL then .error .MaximumRoll
  else .ok { amount := stake, player := bettor, slot := currentSlot,
             seed := seed, roll := roll, bump := bump,
             randomness_account := randomness, commit_slot := currentSlot,
             is_resolved := false }

/-! ## Ed25519 signature-proof verification (resolve_bet.rs 78-130)

The instruction loaded from the sysvar at index 0 is modelled with the
fields the handler inspects: the program id it is addressed to, its
account-meta count, and the signature entries parsed by
`Ed25519InstructionSignatures::unpack`. -/

structure Ed25519Entry where
  is_verifiable : Bool
  public_key : Option (List Nat)
  signature : Option (List Nat)
  message : Option (List Nat)
  deriving DecidableEq, Repr

structure SysvarIx where
  program_id : Nat
  accountsLen : Nat
  sigs : List Ed25519Entry
  deriving DecidableEq, Repr

/-- Identifier standing for `solana_program::ed25519_program::ID`; only
equality with it is ever tested. -/
def ed25519ProgramId : Nat := 0

/-- `ResolveBet::verify_ed25519_signature`, check for check in source
order; every `require` maps to the same error value the Rust code uses
(note the last three checks all raise `Ed25519Signature`). -/
def verifyEd25519Signature (ix : SysvarIx) (house : List Nat) (bet : Bet)
    (sig : List Nat) : Except DiceError Unit :=
  if ix.program_id ≠ ed25519ProgramId then .error .Ed25519Program
  else if ix.accountsLen ≠ 0 then .error .Ed25519Accounts
  else
    match ix.sigs with
    | [entry] =>
      if entry.is_verifiable = false then .error .Ed25519Header
      else
        match entry.public_key with
        | none => .error .Ed25519Pubkey
        | some pk =>
          if pk ≠ house then .error .Ed25519Pubkey
          else
            match entry.signature with
            | none => .error .Ed25519Signature
            | some sb =>
              if sb ≠ sig then .error .Ed25519Signature
              else
                match entry.message with
                | none => .error .Ed25519Signature
                | some msg =>
                  if msg ≠ serializeBet bet then .error .Ed25519Signature
                  else .ok ()
    | _ => .error .Ed25519DataLength

/-! ## Supporting lemmas -/

theorem natToLE_length (w : Nat) : ∀ n, (natToLE w n).length = w := by
  induction w with
  | zero => intro n; rfl
  | succ w ih => intro n; simp [natToLE, ih]

theorem natToBE_length (w : Nat) : ∀ n, (natToBE w n).length = w := by
  induction w with
  | zero => intro n; rfl
  | succ w ih => intro n; simp [natToBE, ih]

theorem natToLE_inj (w : Nat) :
    ∀ m n, m < 256 ^ w → n < 256 ^ w → natToLE w m = natToLE w n → m = n := by
  induction w with
  | zero => intro m n hm hn _; simp at hm hn; omega
  | succ w ih =>
    intro m n hm hn h
    rw [pow_succ] at hm hn
    simp only [natToLE, List.cons.injEq] at h
    have h2 : m / 256 = n / 256 := ih _ _ (by omega) (by omega) h.2
    omega

theorem sha256_length (msg : List Nat) : (sha256 msg).length = 32 := by
  simp [sha256, stateBytes, natToBE_length]

theorem diceRoll_ge_one (sig : List Nat) : 1 ≤ diceRoll sig := by
  unfold diceRoll; omega

theorem diceRoll_le_hundred (sig : List Nat) : diceRoll sig ≤ 100 := by
  unfold diceRoll; omega

theorem serializeBet_inj {x y : Bet} (hx : betWf x) (hy : betWf y)
    (h : serializeBet x = serializeBet y) : x = y := by
  obtain ⟨hxa, ⟨hxpl, _⟩, hxs, hxe, hxr, hxb, ⟨hxrl, _⟩, hxc⟩ := hx
  obtain ⟨hya, ⟨hypl, _⟩, hys, hye, hyr, hyb, ⟨hyrl, _⟩, hyc⟩ := hy
  simp only [serializeBet, List.append_assoc] at h
  obtain ⟨e1, h⟩ := List.append_inj h (by simp [natToLE_length])
  obtain ⟨e2, h⟩ := List.append_inj h (by rw [hxpl, hypl])
  obtain ⟨e3, h⟩ := List.append_inj h (by simp [natToLE_length])
  obtain ⟨e4, h⟩ := List.append_inj h (by simp [natToLE_length])
  obtain ⟨e5, h⟩ := List.append_inj h (by simp)
  obtain ⟨e6, h⟩ := List.append_inj h (by simp)
  obtain ⟨e7, h⟩ := List.append_inj h (by rw [hxrl, hyrl])
  obtain ⟨e8, e9⟩ := List.append_inj h (by simp [natToLE_length])
  have ha : x.amount = y.amount :=
    natToLE_inj 8 _ _ (by norm_num at hxa ⊢; omega) (by norm_num at hya ⊢; omega) e1
  have hs : x.slot = y.slot :=
    natToLE_inj 8 _ _ (by norm_num at hxs ⊢; omega) (by norm_num at hys ⊢; omega) e3
  have he : x.seed = y.seed :=
    natToLE_inj 16 _ _ (by norm_num at hxe ⊢; omega) (by norm_num at hye ⊢; omega) e4
  have hc : x.commit_slot = y.commit_slot :=
    natToLE_inj 8 _ _ (by norm_num at hxc ⊢; omega) (by norm_num at hyc ⊢; omega) e8
  have hr : x.roll = y.roll := by
    simp only [List.cons.injEq] at e5
    norm_num at hxr hyr
    omega
  have hb : x.bump = y.bump := by
    simp only [List.cons.injEq] at e6
    norm_num at hxb hyb
    omega
  have hv : x.is_resolved = y.is_resolved := by
    simp only [List.cons.injEq] at e9
    rcases hrx : x.is_resolved <;> rcases hry : y.is_resolved <;>
      simp [hrx, hry] at e9 ⊢
  cases x
  cases y
  simp_all

/-- The checked payout chain succeeds on every in-range input and computes
the truncating-division formula.  Shared by several claims below. -/
theorem payoutU128_eq (amount roll : Nat) (h1 : amount < 2 ^ 64)
    (h2 : 2 ≤ roll) :
    payoutU128 amount roll =
      .ok (amount * (10000 - HOUSE_EDGE) / (roll - 1) / 100) := by
  have hb : amount * (10000 - HOUSE_EDGE) ≤ 2 ^ 64 * 10000 :=
    Nat.mul_le_mul h1.le (by norm_num [HOUSE_EDGE])
  have hm : amount * (10000 - HOUSE_EDGE) < 2 ^ 128 :=
    lt_of_le_of_lt hb (by norm_num)
  have hd : roll - 1 ≠ 0 := by omega
  unfold payoutU128 checkedMul128 checkedDiv128
  rw [if_pos hm]
  simp only [hd, if_false, ite_false, if_neg, reduceIte]
  rfl

set_option maxRecDepth 20000

/-- C2: the outcome is derived from the signature bytes alone: it equals
`((lower + upper) mod 2^128) mod 100 + 1` where `lower` and `upper` are
the little-endian 128-bit readings of the two 16-byte halves of the
32-byte SHA-256 digest of `sig`, and it always lies in `[1, 100]`.
Determinism over `sig` is inherent: `diceRoll` is a function of the
signature bytes only. -/
theorem c2_outcome_derivation (sig : List Nat) :
    diceRoll sig = ((hashLower sig + hashUpper sig) % 2 ^ 128) % 100 + 1 ∧
    hashLower sig = leU128 ((sha256 sig).take 16) ∧
    hashUpper sig = leU128 ((sha256 sig).drop 16) ∧
    (sha256 sig).length = 32 ∧
    1 ≤ diceRoll sig ∧ diceRoll sig ≤ 100 := by
  refine ⟨?_, rfl, rfl, sha256_length sig, diceRoll_ge_one sig,
    diceRoll_le_hundred sig⟩
  unfold diceRoll
  omega

/-- C3: on a winning resolution the payout is
`stake * (10000 - HOUSE_EDGE) / (threshold - 1) / 100` with
`HOUSE_EDGE = 150`, computed by one checked `u128` multiplication and two
checked `u128` divisions, each failing with `DiceError::Overflow` on
overflow or a zero divisor. -/
theorem c3_payout_formula (amount roll : Nat) (h1 : amount < 2 ^ 64)
    (h2 : 2 ≤ roll) :
    HOUSE_EDGE = 150 ∧
    payoutU128 amount roll =
      .ok (amount * (10000 - HOUSE_EDGE) / (roll - 1) / 100) ∧
    (∀ a b : Nat, 2 ^ 128 ≤ a * b → checkedMul128 a b = .error .Overflow) ∧
    (∀ a : Nat, checkedDiv128 a 0 = .error .Overflow) := by
  refine ⟨rfl, payoutU128_eq amount roll h1 h2, ?_, fun a => rfl⟩
  intro a b hab
  rw [checkedMul128, if_neg (by omega)]

/-- Witness for C3 at `stake = 1_000_000`, `threshold = 50`. -/
theorem c3_payout_formula_witness :
    payoutU128 1000000 50 =
      .ok (1000000 * (10000 - HOUSE_EDGE) / (50 - 1) / 100) :=
  (c3_payout_formula 1000000 50 (by norm_num) (by norm_num)).2.1

/-- C4: the bet wins iff the stored prediction is strictly greater than
the derived outcome; an outcome equal to the prediction loses, outcome 1
wins for every prediction `≥ 2`, outcome 100 loses for every prediction
`≤ 96`, and a losing resolve transfers nothing and leaves the state as it
was. -/
theorem c4_win_condition (t o : Nat) (s : ResolveState) (sig : List Nat) :
    (betWins t o = true ↔ o < t) ∧
    betWins t t = false ∧
    (2 ≤ t → betWins t 1 = true) ∧
    (t ≤ 96 → betWins t 100 = false) ∧
    (betWins s.bet.roll (diceRoll sig) = false →
      resolveBetStep s sig = .ok s) := by
  refine ⟨by simp [betWins], by simp [betWins], ?_, ?_, ?_⟩
  · intro h; simp [betWins]; omega
  · intro h; simp [betWins]; omega
  · intro h; simp [resolveBetStep, h]

/-- Witness for C4 at prediction 50, outcome 49, both outer boundaries,
and a concrete losing resolve (`diceRoll [1] = 97`, prediction 50). -/
theorem c4_win_condition_witness :
    (betWins 50 49 = true ↔ 49 < 50) ∧
    betWins 2 1 = true ∧
    betWins 96 100 = false ∧
    resolveBetStep ⟨⟨1000000, [], 0, 0, 50, 0, [], 0, false⟩, 5, 7⟩ [1] =
      .ok ⟨⟨1000000, [], 0, 0, 50, 0, [], 0, false⟩, 5, 7⟩ := by
  refine ⟨(c4_win_condition 50 49 ⟨⟨0, [], 0, 0, 0, 0, [], 0, false⟩, 0, 0⟩ []).1,
    (c4_win_condition 2 49 ⟨⟨0, [], 0, 0, 0, 0, [], 0, false⟩, 0, 0⟩ []).2.2.1
      (by norm_num),
    (c4_win_condition 96 49 ⟨⟨0, [], 0, 0, 0, 0, [], 0, false⟩, 0, 0⟩ []).2.2.2.1
      (by norm_num),
    (c4_win_condition 50 49 ⟨⟨1000000, [], 0, 0, 50, 0, [], 0, false⟩, 5, 7⟩
      [1]).2.2.2.2 (by rfl)⟩

/-- C5 counterexample: the claimed value `201_020` is not what the
program computes for `stake = 1_000_000`, `threshold = 50`. -/
theorem c5_counterexample : payoutU128 1000000 50 ≠ Except.ok 201020 := by
  have h : payoutU128 1000000 50 = Except.ok 2010204 := rfl
  rw [h]
  intro hc
  injection hc with h2
  omega

/-- C5 amended: for `stake = 1_000_000`, `threshold = 50`,
`HOUSE_EDGE = 150`, a winning resolution pays
`1_000_000 * 9850 / 49 / 100 = 2_010_204` (integer truncation); shown on
the concrete winning signature `[0]`, whose derived outcome is 3. -/
theorem c5_amended :
    1000000 * 9850 / 49 / 100 = 2010204 ∧
    payoutU128 1000000 50 = .ok 2010204 ∧
    diceRoll [0] = 3 ∧
    resolveBetStep ⟨⟨1000000, [], 0, 0, 50, 0, [], 0, false⟩, 10000000000, 0⟩
        [0] =
      .ok ⟨⟨1000000, [], 0, 0, 50, 0, [], 0, false⟩, 9997989796, 2010204⟩ :=
  ⟨by norm_num, rfl, rfl, rfl⟩

/-- C10: for every bet inside the placement bounds the payout chain never
returns `Overflow` — the checked multiplication and both checked divisions
succeed — and the `u128 → u64` cast is lossless, the payout being at most
`amount * 9850 / 100 < 2^64`. -/
theorem c10_payout_no_overflow (amount roll : Nat)
    (h1 : MIN_BET_LAMPORTS ≤ amount) (h2 : amount ≤ MAX_BET_LAMPORTS)
    (h3 : 2 ≤ roll) (h4 : roll ≤ 96) :
    payoutU128 amount roll = .ok (amount * 9850 / (roll - 1) / 100) ∧
    amount * 9850 / (roll - 1) / 100 ≤ amount * 9850 / 100 ∧
    amount * 9850 / 100 < 2 ^ 64 ∧
    (amount * 9850 / (roll - 1) / 100) % 2 ^ 64 =
      amount * 9850 / (roll - 1) / 100 := by
  have hlt : amount < 2 ^ 64 := by
    have := h2
    norm_num [MAX_BET_LAMPORTS] at this
    omega
  have hA : amount * 9850 / (roll - 1) / 100 ≤ amount * 9850 / 100 :=
    Nat.div_le_div_right (Nat.div_le_self _ _)
  have hB : amount * 9850 ≤ 10000000000 * 9850 := by
    have := h2
    norm_num [MAX_BET_LAMPORTS] at this
    exact Nat.mul_le_mul_right _ this
  have hC : amount * 9850 / 100 < 2 ^ 64 :=
    lt_of_le_of_lt (Nat.div_le_div_right hB) (by norm_num)
  refine ⟨?_, hA, hC, Nat.mod_eq_of_lt (by omega)⟩
  have h := payoutU128_eq amount roll hlt h3
  norm_num [HOUSE_EDGE] at h
  exact h

/-- Witness for C10 at the extreme corner `amount = MAX_BET`,
`roll = 2`. -/
theorem c10_payout_no_overflow_witness :
    payoutU128 10000000000 2 = .ok (10000000000 * 9850 / (2 - 1) / 100) :=
  (c10_payout_no_overflow 10000000000 2 (by norm_num [MIN_BET_LAMPORTS])
    (by norm_num [MAX_BET_LAMPORTS]) (by norm_num) (by norm_num)).1

/-- C6: refund fails `NotPlayerBet` for a non-owner, `BetAlreadyResolved`
on a resolved bet, `RefundNotEligible` while the saturating slot
difference is below `REFUND_TIMEOUT_SLOTS` (in particular at exactly
`REFUND_TIMEOUT_SLOTS - 1`), `InsufficientFunds` when the vault balance
is below the stake; and at elapsed `= REFUND_TIMEOUT_SLOTS` with funds
available it succeeds, returning exactly the stake and setting
`is_resolved`. -/
theorem c6_refund_preconditions (requester : List Nat) (cur : Nat)
    (s : RefundState) :
    (s.bet.player ≠ requester →
      refundBetStep requester cur s = .error .NotPlayerBet) ∧
    (s.bet.player = requester → s.bet.is_resolved = true →
      refundBetStep requester cur s = .error .BetAlreadyResolved) ∧
    (s.bet.player = requester → s.bet.is_resolved = false →
      cur - s.bet.commit_slot < REFUND_TIMEOUT_SLOTS →
      refundBetStep requester cur s = .error .RefundNotEligible) ∧
    (s.bet.player = requester → s.bet.is_resolved = false →
      cur - s.bet.commit_slot = REFUND_TIMEOUT_SLOTS - 1 →
      refundBetStep requester cur s = .error .RefundNotEligible) ∧
    (s.bet.player = requester → s.bet.is_resolved = false →
      REFUND_TIMEOUT_SLOTS ≤ cur - s.bet.commit_slot →
      s.vault < s.bet.amount →
      refundBetStep requester cur s = .error .InsufficientFunds) ∧
    (s.bet.player = requester → s.bet.is_resolved = false →
      cur - s.bet.commit_slot = REFUND_TIMEOUT_SLOTS →
      s.bet.amount ≤ s.vault →
      refundBetStep requester cur s =
        .ok ⟨{ s.bet with is_resolved := true }, s.vault - s.bet.amount,
             s.playerLamports + s.bet.amount⟩) := by
  refine ⟨?_, ?_, ?_, ?_, ?_, ?_⟩
  · intro h
    simp [refundBetStep, h]
  · intro h1 h2
    simp [refundBetStep, h1, h2]
  · intro h1 h2 h3
    simp [refundBetStep, h1, h2, h3]
  · intro h1 h2 h3
    have h4 : cur - s.bet.commit_slot < REFUND_TIMEOUT_SLOTS := by
      rw [h3]; norm_num [REFUND_TIMEOUT_SLOTS]
    simp [refundBetStep, h1, h2, h4]
  · intro h1 h2 h3 h4
    have h5 : ¬cur - s.bet.commit_slot < REFUND_TIMEOUT_SLOTS :=
      Nat.not_lt.mpr h3
    simp [refundBetStep, h1, h2, h5, h4]
  · intro h1 h2 h3 h4
    have h5 : ¬cur - s.bet.commit_slot < REFUND_TIMEOUT_SLOTS := by
      rw [h3]; omega
    have h6 : ¬s.bet.amount > s.vault := Nat.not_lt.mpr h4
    have h7 : ¬s.vault < s.bet.amount := Nat.not_lt.mpr h4
    simp [refundBetStep, h1, h2, h5, h6, systemTransfer, h7]

/-- Witness for C6: a concrete bet committed at slot 0; refund at slot 149
is rejected for timing, at slot 150 it succeeds moving exactly the stake,
and a second refund of the now-resolved record is rejected. -/
theorem c6_refund_preconditions_witness :
    refundBetStep [3] 149
        ⟨⟨10000000, [3], 0, 0, 50, 0, [], 0, false⟩, 20000000000, 0⟩ =
      .error .RefundNotEligible ∧
    refundBetStep [3] 150
        ⟨⟨10000000, [3], 0, 0, 50, 0, [], 0, false⟩, 20000000000, 0⟩ =
      .ok ⟨⟨10000000, [3], 0, 0, 50, 0, [], 0, true⟩, 19990000000,
           10000000⟩ ∧
    refundBetStep [7] 150
        ⟨⟨10000000, [3], 0, 0, 50, 0, [], 0, false⟩, 20000000000, 0⟩ =
      .error .NotPlayerBet ∧
    refundBetStep [3] 150
        ⟨⟨10000000, [3], 0, 0, 50, 0, [], 0, true⟩, 20000000000, 0⟩ =
      .error .BetAlreadyResolved ∧
    refundBetStep [3] 150
        ⟨⟨10000000, [3], 0, 0, 50, 0, [], 0, false⟩, 5, 0⟩ =
      .error .InsufficientFunds := by
  refine ⟨?_, ?_, ?_, ?_, ?_⟩
  · exact (c6_refund_preconditions [3] 149
      ⟨⟨10000000, [3], 0, 0, 50, 0, [], 0, false⟩, 20000000000, 0⟩).2.2.2.1
      (by decide) (by decide) (by decide)
  · exact (c6_refund_preconditions [3] 150
      ⟨⟨10000000, [3], 0, 0, 50, 0, [], 0, false⟩, 20000000000, 0⟩).2.2.2.2.2
      (by decide) (by decide) (by decide) (by decide)
  · exact (c6_refund_preconditions [7] 150
      ⟨⟨10000000, [3], 0, 0, 50, 0, [], 0, false⟩, 20000000000, 0⟩).1
      (by decide)
  · exact (c6_refund_preconditions [3] 150
      ⟨⟨10000000, [3], 0, 0, 50, 0, [], 0, true⟩, 20000000000, 0⟩).2.1
      (by decide) (by decide)
  · exact (c6_refund_preconditions [3] 150
      ⟨⟨10000000, [3], 0, 0, 50, 0, [], 0, false⟩, 5, 0⟩).2.2.2.2.1
      (by decide) (by decide) (by decide) (by decide)

/-- C7: resolving a winning bet against a vault whose balance is below the
computed payout fails with the insufficient-funds resource error, and the
rolled-back post-state is exactly the pre-state, the bet still open. -/
theorem c7_vault_insolvency (s : ResolveState) (sig : List Nat) (p : Nat)
    (hres : s.bet.is_resolved = false)
    (hwin : betWins s.bet.roll (diceRoll sig) = true)
    (hp : payoutU128 s.bet.amount s.bet.roll = .ok p)
    (hv : s.vault < p % 2 ^ 64) :
    resolveBetStep s sig = .error .InsufficientFunds ∧
    runResolve s sig = s ∧
    (runResolve s sig).bet.is_resolved = false := by
  have h1 : resolveBetStep s sig = .error .InsufficientFunds := by
    have hv2 : s.vault < p % 18446744073709551616 := by omega
    simp [resolveBetStep, hwin, hp, systemTransfer, hv2]
  exact ⟨h1, by simp [runResolve, h1], by simp [runResolve, h1, hres]⟩

/-- Witness for C7: prediction 90 beats the derived outcome 55 of the
empty signature, the payout is 11_067_415, and an empty vault cannot pay
it. -/
theorem c7_vault_insolvency_witness :
    resolveBetStep ⟨⟨10000000, [3], 0, 0, 90, 0, [], 0, false⟩, 0, 0⟩ [] =
      .error .InsufficientFunds :=
  (c7_vault_insolvency ⟨⟨10000000, [3], 0, 0, 90, 0, [], 0, false⟩, 0, 0⟩
    [] 11067415 rfl rfl rfl (by norm_num)).1

/-- C9: placement succeeds exactly when
`MIN_BET_LAMPORTS ≤ stake ≤ MAX_BET_LAMPORTS` and
`MIN_ROLL ≤ roll ≤ MAX_ROLL`, each violation with its own distinct
validation error, and a successful placement creates the open record. -/
theorem c9_placement_bounds (bettor : List Nat) (stake roll seed : Nat)
    (rand : List Nat) (bump cur : Nat) :
    (stake < MIN_BET_LAMPORTS →
      placeBet bettor stake roll seed rand bump cur = .error .MinimumBet) ∧
    (MIN_BET_LAMPORTS ≤ stake → MAX_BET_LAMPORTS < stake →
      placeBet bettor stake roll seed rand bump cur = .error .MaximumBet) ∧
    (MIN_BET_LAMPORTS ≤ stake → stake ≤ MAX_BET_LAMPORTS → roll < MIN_ROLL →
      placeBet bettor stake roll seed rand bump cur = .error .MinimumRoll) ∧
    (MIN_BET_LAMPORTS ≤ stake → stake ≤ MAX_BET_LAMPORTS → MAX_ROLL < roll →
      placeBet bettor stake roll seed rand bump cur = .error .MaximumRoll) ∧
    ((∃ b, placeBet bettor stake roll seed rand bump cur = .ok b) ↔
      MIN_BET_LAMPORTS ≤ stake ∧ stake ≤ MAX_BET_LAMPORTS ∧
      MIN_ROLL ≤ roll ∧ roll ≤ MAX_ROLL) ∧
    (MIN_BET_LAMPORTS ≤ stake → stake ≤ MAX_BET_LAMPORTS →
      MIN_ROLL ≤ roll → roll ≤ MAX_ROLL →
      placeBet bettor stake roll seed rand bump cur =
        .ok ⟨stake, bettor, cur, seed, roll, bump, rand, cur, false⟩) := by
  simp only [MIN_BET_LAMPORTS, MAX_BET_LAMPORTS, MIN_ROLL, MAX_ROLL]
  refine ⟨?_, ?_, ?_, ?_, ?_, ?_⟩
  · intro h
    unfold placeBet
    simp only [MIN_BET_LAMPORTS, MAX_BET_LAMPORTS, MIN_ROLL, MAX_ROLL]
    split_ifs with g1 g2 g3 g4 <;> first | rfl | (exfalso; omega)
  · intro h1 h2
    unfold placeBet
    simp only [MIN_BET_LAMPORTS, MAX_BET_LAMPORTS, MIN_ROLL, MAX_ROLL]
    split_ifs with g1 g2 g3 g4 <;> first | rfl | (exfalso; omega)
  · intro h1 h2 h3
    unfold placeBet
    simp only [MIN_BET_LAMPORTS, MAX_BET_LAMPORTS, MIN_ROLL, MAX_ROLL]
    split_ifs with g1 g2 g3 g4 <;> first | rfl | (exfalso; omega)
  · intro h1 h2 h3
    unfold placeBet
    simp only [MIN_BET_LAMPORTS, MAX_BET_LAMPORTS, MIN_ROLL, MAX_ROLL]
    split_ifs with g1 g2 g3 g4 <;> first | rfl | (exfalso; omega)
  · constructor
    · rintro ⟨b, hb⟩
      unfold placeBet at hb
      simp only [MIN_BET_LAMPORTS, MAX_BET_LAMPORTS, MIN_ROLL, MAX_ROLL] at hb
      split_ifs at hb with g1 g2 g3 g4 <;>
        first | exact Except.noConfusion hb | omega
    · rintro ⟨h1, h2, h3, h4⟩
      refine ⟨⟨stake, bettor, cur, seed, roll, bump, rand, cur, false⟩, ?_⟩
      unfold placeBet
      simp only [MIN_BET_LAMPORTS, MAX_BET_LAMPORTS, MIN_ROLL, MAX_ROLL]
      split_ifs with g1 g2 g3 g4 <;> first | rfl | (exfalso; omega)
  · intro h1 h2 h3 h4
    unfold placeBet
    simp only [MIN_BET_LAMPORTS, MAX_BET_LAMPORTS, MIN_ROLL, MAX_ROLL]
    split_ifs with g1 g2 g3 g4 <;> first | rfl | (exfalso; omega)

/-- Witness for C9: all four boundary values succeed and one unit outside
each boundary fails with its own error. -/
theorem c9_placement_bounds_witness :
    placeBet [3] 10000000 2 0 [] 0 0 =
      .ok ⟨10000000, [3], 0, 0, 2, 0, [], 0, false⟩ ∧
    placeBet [3] 10000000000 96 0 [] 0 0 =
      .ok ⟨10000000000, [3], 0, 0, 96, 0, [], 0, false⟩ ∧
    placeBet [3] 9999999 50 0 [] 0 0 = .error .MinimumBet ∧
    placeBet [3] 10000000001 50 0 [] 0 0 = .error .MaximumBet ∧
    placeBet [3] 10000000 1 0 [] 0 0 = .error .MinimumRoll ∧
    placeBet [3] 10000000 97 0 [] 0 0 = .error .MaximumRoll := by
  refine ⟨?_, ?_, ?_, ?_, ?_, ?_⟩
  · exact (c9_placement_bounds [3] 10000000 2 0 [] 0 0).2.2.2.2.2
      (by decide) (by decide) (by decide) (by decide)
  · exact (c9_placement_bounds [3] 10000000000 96 0 [] 0 0).2.2.2.2.2
      (by decide) (by decide) (by decide) (by decide)
  · exact (c9_placement_bounds [3] 9999999 50 0 [] 0 0).1 (by decide)
  · exact (c9_placement_bounds [3] 10000000001 50 0 [] 0 0).2.1
      (by decide) (by decide)
  · exact (c9_placement_bounds [3] 10000000 1 0 [] 0 0).2.2.1
      (by decide) (by decide) (by decide)
  · exact (c9_placement_bounds [3] 10000000 97 0 [] 0 0).2.2.2.1
      (by decide) (by decide) (by decide)

/-- C1 fails on the code: `RefundBet::refund_bet` does reject a resolved
bet with `BetAlreadyResolved`, but `ResolveBet::resolve_bet` never reads
the `is_resolved` flag, so a bet that was already refunded (resolved flag
`true`) is resolved again and pays out a second time.  Concretely: a
10_000_000-lamport bet on 50 is refunded at slot 150; refunding again
fails `BetAlreadyResolved`, yet resolving with the winning signature `[0]`
(outcome 3) succeeds and moves another 20_102_040 lamports out of the
vault. -/
theorem c1_terminal_transition_bug :
    refundBetStep [3] 150
        ⟨⟨10000000, [3], 0, 0, 50, 0, [], 0, false⟩, 20000000000, 0⟩ =
      .ok ⟨⟨10000000, [3], 0, 0, 50, 0, [], 0, true⟩, 19990000000,
           10000000⟩ ∧
    refundBetStep [3] 300
        ⟨⟨10000000, [3], 0, 0, 50, 0, [], 0, true⟩, 19990000000,
         10000000⟩ =
      .error .BetAlreadyResolved ∧
    resolveBetStep
        ⟨⟨10000000, [3], 0, 0, 50, 0, [], 0, true⟩, 19990000000,
         10000000⟩ [0] =
      .ok ⟨⟨10000000, [3], 0, 0, 50, 0, [], 0, true⟩, 19969897960,
           30102040⟩ :=
  ⟨rfl, rfl, rfl⟩

/-- C8: verification passes only when the signed message is byte-for-byte
the Borsh serialization of the bet being resolved, and a well-formed proof
whose message serializes a different bet `A` is rejected when presented
against bet `B` (the message-mismatch check raises
`DiceError::Ed25519Signature`). -/
theorem c8_signature_binding (ix : SysvarIx) (house : List Nat) (A B : Bet)
    (sig : List Nat) :
    (verifyEd25519Signature ix house B sig = .ok () →
      ∃ e, ix.sigs = [e] ∧ e.message = some (serializeBet B)) ∧
    (betWf A → betWf B → A ≠ B →
      ix.program_id = ed25519ProgramId → ix.accountsLen = 0 →
      ∀ e, ix.sigs = [e] → e.is_verifiable = true →
        e.public_key = some house → e.signature = some sig →
        e.message = some (serializeBet A) →
        verifyEd25519Signature ix house B sig =
          .error .Ed25519Signature) := by
  constructor
  · intro h
    obtain ⟨pid, alen, sigs⟩ := ix
    rcases sigs with _ | ⟨e, rest⟩
    · unfold verifyEd25519Signature at h
      split_ifs at h <;> exact Except.noConfusion h
    · rcases rest with _ | ⟨e2, rest2⟩
      · obtain ⟨hver, hpk, hsg, hmg⟩ := e
        unfold verifyEd25519Signature at h
        rcases hpk with _ | pk <;> rcases hsg with _ | sb <;>
          rcases hmg with _ | mg <;>
          simp only [] at h <;>
          split_ifs at h with g1 g2 g3 g4 g5 g6 <;>
          first
            | exact Except.noConfusion h
            | exact ⟨_, rfl, by simp [not_ne_iff.mp g6]⟩
      · unfold verifyEd25519Signature at h
        split_ifs at h <;> exact Except.noConfusion h
  · intro wfA wfB hne hpid halen e hS hver hpk hsg hmg
    have hser : serializeBet A ≠ serializeBet B := fun hEq =>
      hne (serializeBet_inj wfA wfB hEq)
    unfold verifyEd25519Signature
    rw [hS]
    simp [hpid, halen, hver, hpk, hsg, hmg, hser]

/-- Witness for C8: a syntactically valid proof over the serialization of
bet `A` (seed 5) is rejected when resolving bet `B` (seed 6). -/
theorem c8_signature_binding_witness :
    verifyEd25519Signature
      ⟨0, 0, [⟨true, some (List.replicate 32 9), some [1, 2],
        some (serializeBet ⟨10000000, List.replicate 32 1, 0, 5, 50, 254,
          List.replicate 32 2, 0, false⟩)⟩]⟩
      (List.replicate 32 9)
      ⟨10000000, List.replicate 32 1, 0, 6, 50, 254,
        List.replicate 32 2, 0, false⟩
      [1, 2] = .error .Ed25519Signature :=
  (c8_signature_binding
    ⟨0, 0, [⟨true, some (List.replicate 32 9), some [1, 2],
      some (serializeBet ⟨10000000, List.replicate 32 1, 0, 5, 50, 254,
        List.replicate 32 2, 0, false⟩)⟩]⟩
    (List.replicate 32 9)
    ⟨10000000, List.replicate 32 1, 0, 5, 50, 254,
      List.replicate 32 2, 0, false⟩
    ⟨10000000, List.replicate 32 1, 0, 6, 50, 254,
      List.replicate 32 2, 0, false⟩
    [1, 2]).2
    (by decide) (by decide) (by decide) rfl rfl _ rfl rfl rfl rfl rfl
